import Mathlib

/-!
A shallow embedding of `src/main.c` of ishan211/seashell, a small
interactive command interpreter (read a line, split it into tokens,
dispatch to a builtin or launch an external program), together with
theorems settling the specification claims about it.

Modelling conventions:
* C strings are Lean `String`s (for command tokens) or `List Char`
  (for the raw input line and the tokenizer, where the null terminator
  and slices matter); a `NULL` entry in a null-terminated array is the
  end of the Lean list, and where the claim is about the terminator
  itself we use `Option` entries with `none` as the null marker.
* OS state (current working directory, the set of directories `chdir`
  accepts, the standard streams, the outcome of `fork`/`waitpid`) is an
  explicit `World` record threaded through each function, since the C
  functions act on it through OS calls.
* `stdout`/`stderr` are lists of emitted lines; `perror`/`fprintf`
  messages are modelled by a fixed representative string per call site.
* Return values keep the C type: `Int`, with 1 the continue-signal and
  0 the terminate-signal.
-/

namespace Seashell

/-- An OS wait status as distinguished by `WIFEXITED` / `WIFSIGNALED` /
`WIFSTOPPED`: the child exited normally with a code, was terminated by a
signal, or was stopped by a signal (possible because `waitpid` is called
with `WUNTRACED`). -/
inductive WStatus : Type
  | exited (code : Nat)
  | signaled (sig : Nat)
  | stopped (sig : Nat)
deriving DecidableEq, Repr

/-- `WIFEXITED(status)`: the child terminated normally. -/
def wifexited : WStatus → Bool
  | .exited _ => true
  | _ => false

/-- `WIFSIGNALED(status)`: the child was terminated by a signal. -/
def wifsignaled : WStatus → Bool
  | .signaled _ => true
  | _ => false

/-- The OS state the shell's functions read and write through system
calls.  `validDirs` models which arguments `chdir` accepts; `forkResult`
models the outcome of the next `fork`: `none` is a fork failure
(`pid < 0`), and `some sts` is a successful fork whose child produces
the wait statuses `sts`, in order, to successive `waitpid` calls. -/
structure World : Type where
  cwd : String
  validDirs : List String
  stdout : List String
  stderr : List String
  forkResult : Option (List WStatus)
deriving DecidableEq, Repr

/-- `builtin_str` from the source: the names of the builtin commands,
in declaration order. -/
def builtin_str : List String := ["cd", "help", "exit"]

/-- `csh_num_builtins()`: the number of entries of `builtin_str`. -/
def csh_num_builtins : Nat := builtin_str.length

/-- `csh_cd`: change directory.  If `args[1]` is `NULL` it prints
"lsh: cd: missing argument" to stderr; otherwise it calls
`chdir(args[1])` and on failure prints the OS error via `perror("lsh")`
(modelled by one representative stderr line).  Only `args[1]` is ever
read.  Always returns 1. -/
def csh_cd (args : List String) (w : World) : Int × World :=
  match args.get? 1 with
  | none => (1, { w with stderr := w.stderr ++ ["lsh: cd: missing argument"] })
  | some dir =>
      if w.validDirs.contains dir then
        (1, { w with cwd := dir })
      else
        (1, { w with stderr := w.stderr ++ ["lsh: chdir error"] })

/-- The exact lines `csh_help` prints: three fixed banner lines, one
line `"  <name>"` per entry of `builtin_str` (the source loops
`i < csh_num_builtins()`), and a closing line. -/
def help_lines : List String :=
  ["Ishan Leung's C Shell",
   "Type program names and arguments, and press the enter key.",
   "The following are built-in commands:"]
  ++ builtin_str.map (fun s => "  " ++ s)
  ++ ["Use the man command for info on other programs. "]

/-- `csh_help`: prints the fixed banner and builtin list to stdout,
ignoring its arguments.  Always returns 1. -/
def csh_help (args : List String) (w : World) : Int × World :=
  (1, { w with stdout := w.stdout ++ help_lines })

/-- `csh_exit`: ignores its arguments and returns 0, the
terminate-signal. -/
def csh_exit (args : List String) (w : World) : Int × World :=
  (0, w)

/-- The parent's `do { waitpid(pid, &status, WUNTRACED); } while
(!WIFEXITED(status) && !WIFSIGNALED(status));` loop, consuming the
child's successive wait statuses.  Returns the number of `waitpid`
calls made and the status the loop stopped on (`none` if the supplied
status stream is exhausted, i.e. the loop is still waiting). -/
def waitLoop : List WStatus → Nat × Option WStatus
  | [] => (0, none)
  | s :: rest =>
      if !(wifexited s) && !(wifsignaled s) then
        ((waitLoop rest).fst + 1, (waitLoop rest).snd)
      else
        (1, some s)

/-- The observable outcome of `csh_launch`: its return value, the
resulting OS state, how many `waitpid` calls the parent made, and the
status on which the wait loop ended. -/
structure Launch : Type where
  ret : Int
  world : World
  waitCalls : Nat
  finalStatus : Option WStatus
deriving DecidableEq, Repr

/-- `csh_launch`: `fork`; if the fork fails (`pid < 0`) report the OS
error via `perror("lsh")` and fall through; in the child, `execvp` (the
child never returns into shell logic — it is outside this parent-side
model); in the parent, run the wait loop.  Every path returns 1. -/
def csh_launch (args : List String) (w : World) : Launch :=
  match w.forkResult with
  | none =>
      { ret := 1
        world := { w with stderr := w.stderr ++ ["lsh: fork error"] }
        waitCalls := 0
        finalStatus := none }
  | some sts =>
      { ret := 1
        world := w
        waitCalls := (waitLoop sts).fst
        finalStatus := (waitLoop sts).snd }

/-- `builtin_func` from the source: the handlers, index-aligned with
`builtin_str`. -/
def builtin_func : List (List String → World → Int × World) :=
  [csh_cd, csh_help, csh_exit]

/-- `csh_execute`: if `args[0]` is `NULL` (empty command) return 1;
otherwise scan `builtin_str` in order with `strcmp`, and on the first
match call the index-aligned handler of `builtin_func`; with no match,
delegate to `csh_launch`. -/
def csh_execute (args : List String) (w : World) : Int × World :=
  match args with
  | [] => (1, w)
  | cmd :: _ =>
      match (builtin_str.zip builtin_func).find? (fun p => p.fst == cmd) with
      | some p => p.snd args w
      | none =>
          let l := csh_launch args w
          (l.ret, l.world)

/-- The delimiter set `CSH_TOK_DELIM = " \t\r\n\a"`: space, tab,
carriage-return, newline, bell. -/
def CSH_TOK_DELIM : List Char := [' ', '\t', '\r', '\n', '\x07']

/-- Membership in the delimiter set. -/
def isDelim (c : Char) : Bool := CSH_TOK_DELIM.contains c

/-- The scan `strtok` performs over the line with delimiter set
`CSH_TOK_DELIM`: tokens are the maximal runs of non-delimiter
characters, accumulated in `acc` (in reverse) while inside a run.
Delimiter characters end the current run (if any) and are skipped, so
adjacent delimiters never yield an empty token. -/
def splitAux : List Char → List Char → List (List Char)
  | [], acc => if acc = [] then [] else [acc.reverse]
  | c :: rest, acc =>
      if isDelim c then
        if acc = [] then splitAux rest []
        else acc.reverse :: splitAux rest []
      else splitAux rest (c :: acc)

/-- `csh_split_line`: repeatedly calls `strtok(line, CSH_TOK_DELIM)`,
storing each returned token; each token is a slice of the line, here a
`List Char`.  The terminating `tokens[position] = NULL` is the end of
the Lean list (see `csh_split_line_vec` for the explicit form). -/
def csh_split_line (line : List Char) : List (List Char) :=
  splitAux line []

/-- The token array of `csh_split_line` with its null terminator
explicit: the cell holding token `t` is `some t`, and the cell written
by `tokens[position] = NULL` after the last token is `none`. -/
def csh_split_line_vec (line : List Char) : List (Option (List Char)) :=
  (csh_split_line line).map some ++ [none]

/-- The outcome of `csh_read_line` on a given input stream: either a
completed line together with the unread remainder of the stream, or
termination of the whole program via `exit(EXIT_SUCCESS)`. -/
inductive ReadResult : Type
  | line (chars : List Char) (rest : List Char)
  | exitSuccess
deriving DecidableEq, Repr

/-- `csh_read_line` (the default, non-`CSH_USE_STD_GETLINE` branch):
read characters one at a time; on `EOF` (the stream is exhausted) call
`exit(EXIT_SUCCESS)`; on a newline, terminate the buffer and return
it; otherwise store the character and continue.  Buffer growth and the
fatal allocation path are not observable here and are omitted. -/
def csh_read_line : List Char → ReadResult
  | [] => .exitSuccess
  | c :: rest =>
      if c = '\n' then .line [] rest
      else
        match csh_read_line rest with
        | .exitSuccess => .exitSuccess
        | .line s r => .line (c :: s) r

/-! ### Concrete worlds used by the witness theorems -/

/-- A world whose next fork fails, with `/tmp` the only valid `chdir`
target. -/
def w0 : World :=
  { cwd := "/home", validDirs := ["/tmp"], stdout := [], stderr := [],
    forkResult := none }

/-- A world whose next fork succeeds and whose child is first stopped
by signal 19 (SIGSTOP) and then exits with code 0. -/
def w1 : World :=
  { cwd := "/home", validDirs := ["/tmp"], stdout := [], stderr := [],
    forkResult := some [WStatus.stopped 19, WStatus.exited 0] }

/-! ### Helper lemmas -/

/-- Tokens produced by the `strtok` scan are nonempty and contain no
delimiter character, provided the running accumulator does not either. -/
theorem splitAux_sound (l : List Char) :
    ∀ acc : List Char, (∀ c ∈ acc, isDelim c = false) →
      ∀ t ∈ splitAux l acc, t ≠ [] ∧ ∀ c ∈ t, isDelim c = false := by
  induction l with
  | nil =>
      intro acc hacc t ht
      by_cases h : acc = []
      · simp [splitAux, h] at ht
      · simp only [splitAux, if_neg h, List.mem_singleton] at ht
        subst ht
        refine ⟨by simpa using h, ?_⟩
        intro c hc
        exact hacc c (List.mem_reverse.mp hc)
  | cons c rest ih =>
      intro acc hacc t ht
      by_cases hd : isDelim c = true
      · by_cases h : acc = []
        · simp only [splitAux, hd, if_true, if_pos h] at ht
          exact ih [] (by simp) t ht
        · simp only [splitAux, hd, if_true, if_neg h, List.mem_cons] at ht
          rcases ht with rfl | ht
          · refine ⟨by simpa using h, ?_⟩
            intro x hx
            exact hacc x (List.mem_reverse.mp hx)
          · exact ih [] (by simp) t ht
      · simp only [splitAux, hd, if_false] at ht
        refine ih (c :: acc) ?_ t ht
        intro x hx
        rcases List.mem_cons.mp hx with rfl | hx
        · simpa using hd
        · exact hacc x hx

/-- A line of delimiters only is scanned to no tokens at all. -/
theorem splitAux_all_delim (l : List Char)
    (h : ∀ c ∈ l, isDelim c = true) : splitAux l [] = [] := by
  induction l with
  | nil => rfl
  | cons c rest ih =>
      have hc : isDelim c = true := h c (List.mem_cons_self c rest)
      simp only [splitAux, hc, if_true, if_pos rfl]
      exact ih (fun x hx => h x (List.mem_cons_of_mem c hx))

/-- Unfolding `csh_cd` when `args[1]` is `NULL`. -/
theorem csh_cd_eq_none (args : List String) (w : World) (h : args.get? 1 = none) :
    csh_cd args w =
      (1, { w with stderr := w.stderr ++ ["lsh: cd: missing argument"] }) := by
  unfold csh_cd
  rw [h]

/-- Unfolding `csh_cd` when `chdir(args[1])` succeeds. -/
theorem csh_cd_eq_valid (args : List String) (w : World) (d : String)
    (h : args.get? 1 = some d) (hv : w.validDirs.contains d = true) :
    csh_cd args w = (1, { w with cwd := d }) := by
  unfold csh_cd
  rw [h]
  show (if w.validDirs.contains d = true then ((1 : Int), { w with cwd := d })
        else ((1 : Int), { w with stderr := w.stderr ++ ["lsh: chdir error"] })) = _
  rw [if_pos hv]

/-- Unfolding `csh_cd` when `chdir(args[1])` fails. -/
theorem csh_cd_eq_invalid (args : List String) (w : World) (d : String)
    (h : args.get? 1 = some d) (hv : w.validDirs.contains d = false) :
    csh_cd args w =
      (1, { w with stderr := w.stderr ++ ["lsh: chdir error"] }) := by
  unfold csh_cd
  rw [h]
  show (if w.validDirs.contains d = true then ((1 : Int), { w with cwd := d })
        else ((1 : Int), { w with stderr := w.stderr ++ ["lsh: chdir error"] })) = _
  rw [if_neg]
  rw [hv]
  simp

/-- The status on which the parent's wait loop stops satisfies
`WIFEXITED || WIFSIGNALED`. -/
theorem waitLoop_snd_terminal (sts : List WStatus) :
    ∀ s, (waitLoop sts).snd = some s → (wifexited s || wifsignaled s) = true := by
  induction sts with
  | nil => intro s h; simp [waitLoop] at h
  | cons a rest ih =>
      intro s h
      cases hex : wifexited a <;> cases hsig : wifsignaled a <;>
        simp only [waitLoop, hex, hsig, Bool.not_false, Bool.not_true,
          Bool.and_self, Bool.false_and, Bool.and_false, Bool.true_and,
          if_true, if_false] at h
      · exact ih s h
      all_goals
        cases h
        simp [hex, hsig]

/-! ### Claim theorems -/

/-- C2: for every token vector whose first token is `"exit"`, dispatch
returns the terminate-signal 0, whatever arguments follow (in
particular `["exit", "7"]`), and with no side effect on the world. -/
theorem execute_exit_terminates (rest : List String) (w : World) :
    csh_execute ("exit" :: rest) w = (0, w) := rfl

/-- C4: dispatching the empty token vector (its first entry is the null
marker) returns the continue-signal 1 immediately, with the world —
streams, directory, fork state — untouched, so neither the builtin
table nor the launcher acts. -/
theorem execute_empty_continues (w : World) :
    csh_execute [] w = (1, w) := rfl

/-- C3: `cd` always returns the continue-signal 1 (it never terminates
the loop), and on either failure — missing argument, or a target the OS
rejects — it leaves the working directory unchanged and reports exactly
one error line on stderr. -/
theorem cd_failure_behavior (args : List String) (w : World) :
    (csh_cd args w).fst = 1 ∧
    ((args.get? 1 = none ∨
        ∃ d, args.get? 1 = some d ∧ w.validDirs.contains d = false) →
      (csh_cd args w).snd.cwd = w.cwd ∧
      (csh_cd args w).snd.stderr = w.stderr ++ ["lsh: cd: missing argument"] ∨
      (csh_cd args w).snd.cwd = w.cwd ∧
      (csh_cd args w).snd.stderr = w.stderr ++ ["lsh: chdir error"]) := by
  rcases hget : args.get? 1 with _ | d
  · rw [csh_cd_eq_none args w hget]
    exact ⟨rfl, fun _ => Or.inl ⟨rfl, rfl⟩⟩
  · rcases hv : w.validDirs.contains d with _ | _
    · rw [csh_cd_eq_invalid args w d hget hv]
      exact ⟨rfl, fun _ => Or.inr ⟨rfl, rfl⟩⟩
    · rw [csh_cd_eq_valid args w d hget hv]
      refine ⟨rfl, ?_⟩
      rintro (h | ⟨d', hd', hv'⟩)
      · cases h
      · cases hd'
        rw [hv] at hv'
        cases hv'

/-- C3 witness: `["cd"]` in the concrete world `w0` keeps the
directory, adds one error line, and the theorem applies. -/
theorem cd_failure_behavior_witness :
    (csh_cd ["cd"] w0).snd.cwd = w0.cwd ∧
    (csh_cd ["cd"] w0).snd.stderr = w0.stderr ++ ["lsh: cd: missing argument"] ∨
    (csh_cd ["cd"] w0).snd.cwd = w0.cwd ∧
    (csh_cd ["cd"] w0).snd.stderr = w0.stderr ++ ["lsh: chdir error"] :=
  (cd_failure_behavior ["cd"] w0).2 (Or.inl rfl)

/-- C8: `help` ignores its arguments and world, always returns the
continue-signal 1, and always appends the one fixed banner — whose
builtin-list section is exactly `cd`, `help`, `exit` — to stdout, so
repeated invocations print identical output. -/
theorem help_fixed_banner (args args' : List String) (w : World) :
    (csh_help args w).fst = 1 ∧
    (csh_help args w).snd = { w with stdout := w.stdout ++ help_lines } ∧
    csh_help args w = csh_help args' w ∧
    builtin_str = ["cd", "help", "exit"] ∧
    help_lines =
      ["Ishan Leung's C Shell",
       "Type program names and arguments, and press the enter key.",
       "The following are built-in commands:",
       "  cd", "  help", "  exit",
       "Use the man command for info on other programs. "] :=
  ⟨rfl, rfl, rfl, rfl, by decide⟩

/-- C9: `cd` reads nothing of its argument vector beyond positions 0
and 1 (indeed only position 1): two vectors agreeing there make `cd`
behave identically on any world — extra arguments are silently
ignored. -/
theorem cd_ignores_extra_args (args args' : List String) (w : World)
    (h0 : args.get? 0 = args'.get? 0) (h1 : args.get? 1 = args'.get? 1) :
    csh_cd args w = csh_cd args' w := by
  unfold csh_cd
  rw [h1]

/-- C9 witness: extra arguments after the target directory change
nothing. -/
theorem cd_ignores_extra_args_witness :
    (["cd", "/tmp", "a", "b"] : List String).get? 0 = (["cd", "/tmp"] : List String).get? 0 ∧
    (["cd", "/tmp", "a", "b"] : List String).get? 1 = (["cd", "/tmp"] : List String).get? 1 ∧
    csh_cd ["cd", "/tmp", "a", "b"] w0 = csh_cd ["cd", "/tmp"] w0 :=
  ⟨rfl, rfl, cd_ignores_extra_args ["cd", "/tmp", "a", "b"] ["cd", "/tmp"] w0 rfl rfl⟩

/-- C5: an input line made entirely of delimiter characters (or empty)
tokenizes to the token array `[NULL]` — its first entry is the null
marker — and, on any line at all, consecutive delimiters never produce
an empty token. -/
theorem split_line_delims_collapse :
    (∀ line : List Char, (∀ c ∈ line, isDelim c = true) →
        csh_split_line_vec line = [none]) ∧
    (∀ line : List Char, ∀ t ∈ csh_split_line line, t ≠ []) := by
  constructor
  · intro line h
    unfold csh_split_line_vec csh_split_line
    rw [splitAux_all_delim line h]
    rfl
  · intro line t ht
    exact (splitAux_sound line [] (by simp) t ht).1

/-- C5 witness: the line of one each of the five delimiters tokenizes
to `[NULL]`. -/
theorem split_line_delims_collapse_witness :
    (∀ c ∈ [' ', '\t', '\r', '\n', '\x07'], isDelim c = true) ∧
    csh_split_line_vec [' ', '\t', '\r', '\n', '\x07'] = [none] :=
  ⟨by decide, split_line_delims_collapse.1 [' ', '\t', '\r', '\n', '\x07'] (by decide)⟩

/-- C10: every entry of the token array before the terminating null
marker is a nonempty token without any delimiter character, and the
entry at index `position` — immediately after the last real token — is
the null marker written by `tokens[position] = NULL`. -/
theorem split_line_token_invariant (line : List Char) :
    (∀ t, some t ∈ csh_split_line_vec line →
        t ≠ [] ∧ ∀ c ∈ t, isDelim c = false) ∧
    (csh_split_line_vec line)[(csh_split_line line).length]? = some none := by
  constructor
  · intro t ht
    have hmem : t ∈ csh_split_line line := by
      unfold csh_split_line_vec at ht
      rcases List.mem_append.mp ht with h | h
      · rcases List.mem_map.mp h with ⟨u, hu, he⟩
        cases he
        exact hu
      · simp at h
    exact splitAux_sound line [] (by simp) t hmem
  · show ((csh_split_line line).map some ++ [none])[(csh_split_line line).length]? = some none
    rw [← List.length_map (csh_split_line line) some]
    exact List.getElem?_concat_length _ _

/-- C10 witness: on the line `ls -la`, the first produced token slice
is nonempty and delimiter-free, via the theorem. -/
theorem split_line_token_invariant_witness :
    some ['l', 's'] ∈ csh_split_line_vec ['l', 's', ' ', '-', 'l', 'a'] ∧
    (['l', 's'] ≠ [] ∧ ∀ c ∈ ['l', 's'], isDelim c = false) :=
  ⟨by decide,
   (split_line_token_invariant ['l', 's', ' ', '-', 'l', 'a']).1 ['l', 's'] (by decide)⟩

/-- C6: `csh_launch` returns the continue-signal 1 on every path, and
when `fork` itself fails it reports the OS error on stderr and makes no
`waitpid` call at all (it does not block). -/
theorem launch_always_continues (args : List String) (w : World) :
    (csh_launch args w).ret = 1 ∧
    (w.forkResult = none →
      (csh_launch args w).world =
        { w with stderr := w.stderr ++ ["lsh: fork error"] } ∧
      (csh_launch args w).waitCalls = 0) := by
  unfold csh_launch
  rcases h : w.forkResult with _ | sts
  · exact ⟨rfl, fun _ => ⟨rfl, rfl⟩⟩
  · exact ⟨rfl, fun hc => nomatch hc⟩

/-- C6 witness: launching in the world `w0`, whose fork fails, still
yields 1, one stderr report, and zero waits. -/
theorem launch_always_continues_witness :
    (csh_launch ["foo"] w0).world =
      { w0 with stderr := w0.stderr ++ ["lsh: fork error"] } ∧
    (csh_launch ["foo"] w0).waitCalls = 0 :=
  (launch_always_continues ["foo"] w0).2 rfl

/-- C7: after a successful fork, the status `csh_launch`'s wait loop
ends on always satisfies `WIFEXITED || WIFSIGNALED` — a stopped status
is never treated as completion; indeed on a stopped status the loop
makes one more `waitpid` call and continues with the rest of the
child's statuses. -/
theorem launch_wait_skips_stopped :
    (∀ (args : List String) (w : World) (sts : List WStatus) (s : WStatus),
        w.forkResult = some sts →
        (csh_launch args w).finalStatus = some s →
        (wifexited s || wifsignaled s) = true) ∧
    (∀ (sig : Nat) (rest : List WStatus),
        waitLoop (WStatus.stopped sig :: rest) =
          ((waitLoop rest).fst + 1, (waitLoop rest).snd)) := by
  constructor
  · intro args w sts s hfork hfin
    have heq : (csh_launch args w).finalStatus = (waitLoop sts).snd := by
      unfold csh_launch
      rw [hfork]
    rw [heq] at hfin
    exact waitLoop_snd_terminal sts s hfin
  · intro sig rest
    simp [waitLoop, wifexited, wifsignaled]

/-- C7 witness: in `w1` the child is first stopped (signal 19), the
loop waits again, and ends on the terminal `exited 0` status. -/
theorem launch_wait_skips_stopped_witness :
    w1.forkResult = some [WStatus.stopped 19, WStatus.exited 0] ∧
    (csh_launch ["sleep"] w1).finalStatus = some (WStatus.exited 0) ∧
    (wifexited (WStatus.exited 0) || wifsignaled (WStatus.exited 0)) = true :=
  ⟨rfl, rfl,
   launch_wait_skips_stopped.1 ["sleep"] w1 [WStatus.stopped 19, WStatus.exited 0]
     (WStatus.exited 0) rfl rfl⟩

/-- C1 counterexample: the stream holding the single character `a` and
then end-of-stream has one character read before the stream ends, yet
`csh_read_line` does not return the partial line `"a"` — it terminates
the whole program (`exit(EXIT_SUCCESS)` on `EOF`, reached with
`position = 1`). -/
theorem read_line_partial_counterexample :
    csh_read_line ['a'] = ReadResult.exitSuccess ∧
    csh_read_line ['a'] ≠ ReadResult.line ['a'] [] := by
  decide

/-- C1 (amended): whenever the input stream ends before any newline —
whether zero or more characters were read first — `csh_read_line`
terminates the whole program; a partial line is never returned. -/
theorem read_line_eof_always_exits (s : List Char) (h : '\n' ∉ s) :
    csh_read_line s = ReadResult.exitSuccess := by
  induction s with
  | nil => rfl
  | cons c rest ih =>
      rw [List.mem_cons, not_or] at h
      unfold csh_read_line
      rw [if_neg (fun hc => h.1 hc.symm), ih h.2]

/-- C1 witness: the newline-free stream `ab` makes the program exit. -/
theorem read_line_eof_always_exits_witness :
    ('\n' ∉ ['a', 'b']) ∧ csh_read_line ['a', 'b'] = ReadResult.exitSuccess :=
  ⟨by decide, read_line_eof_always_exits ['a', 'b'] (by decide)⟩

end Seashell
